import Mathlib

/-!
A shallow embedding of `dpdispatcher/submission.py`: the `Submission` / `Job` /
`Task` / `Resources` data model, their canonical serializations, and the
driver-level operations (`generate_jobs`, `register_task`, `check_all_finished`,
`handle_unexpected_job_state`, `try_recover_from_json`, and the `run_submission`
control flow), together with theorems settling the specification claims.

Python dictionaries and lists are embedded as the `PyVal` inductive (dictionary
entries keep insertion order, as Python dicts do).  External collaborators
(the `Batch` scheduler backend and the `Context` file transport) are passed in
as explicit parameters, mirroring the way the code only calls their narrow
interfaces.  Mutation-plus-exception methods are embedded as functions
returning `Except` together with the post-state.
-/

namespace Dpd

/-- Embedding of the Python values produced by the `serialize` methods:
strings, ints, rationals (for the float field `task_need_resources`), booleans,
`None`, lists (as cons cells) and insertion-ordered dicts (as entry chains). -/
inductive PyVal where
  | str (s : String)
  | int (n : Int)
  | rat (q : Rat)
  | bool (b : Bool)
  | pynone
  | nil
  | cons (hd tl : PyVal)
  | dnil
  | dcons (k : String) (v tl : PyVal)
  deriving DecidableEq

/-- Build a `PyVal` list from a Lean list. -/
def PyVal.ofList : List PyVal → PyVal
  | [] => .nil
  | x :: xs => .cons x (PyVal.ofList xs)

/-- Build a `PyVal` dict from an insertion-ordered key/value list. -/
def PyVal.ofDict : List (String × PyVal) → PyVal
  | [] => .dnil
  | (k, v) :: xs => .dcons k v (PyVal.ofDict xs)

/-- Canonical textual encoding of a `PyVal`, standing in for Python `str()`
applied to the serialized dictionary (the string that the code hashes). -/
def PyVal.enc : PyVal → String
  | .str s => "s<" ++ s ++ ">"
  | .int n => "i<" ++ toString n ++ ">"
  | .rat q => "q<" ++ toString q ++ ">"
  | .bool b => "b<" ++ toString b ++ ">"
  | .pynone => "None"
  | .nil => "L<>"
  | .cons hd tl => "L<" ++ hd.enc ++ ";" ++ tl.enc ++ ">"
  | .dnil => "D<>"
  | .dcons k v tl => "D<" ++ k ++ ":" ++ v.enc ++ ";" ++ tl.enc ++ ">"

/-- `hashlib.sha1(...).hexdigest()` (Python standard library, external to the
dispatcher code): modelled as an injective digest of the canonical encoding.
Every claim uses the hash only as a deterministic function of the serialized
value, which this model provides. -/
def sha1hex (v : PyVal) : String := "sha1<" ++ v.enc ++ ">"

/-- First value bound to `key` in a `PyVal` dict, if any. -/
def PyVal.lookupKey : PyVal → String → Option PyVal
  | .dcons k v tl, key => if k = key then some v else tl.lookupKey key
  | _, _ => Option.none

/-- Insertion-ordered key list of a `PyVal` dict. -/
def PyVal.dictKeys : PyVal → List String
  | .dcons k _ tl => k :: tl.dictKeys
  | _ => []

/-- Entries of a `PyVal` list as a Lean list. -/
def PyVal.listItems : PyVal → List PyVal
  | .cons hd tl => hd :: tl.listItems
  | _ => []

/-- Expect a string value. -/
def PyVal.asStr : PyVal → Except String String
  | .str s => .ok s
  | _ => .error "expected a string"

/-- Expect an int value. -/
def PyVal.asInt : PyVal → Except String Int
  | .int n => .ok n
  | _ => .error "expected an int"

/-- Expect a rational (Python float/int) value. -/
def PyVal.asRat : PyVal → Except String Rat
  | .rat q => .ok q
  | _ => .error "expected a number"

/-- Expect a bool value. -/
def PyVal.asBool : PyVal → Except String Bool
  | .bool b => .ok b
  | _ => .error "expected a bool"

/-- Expect a list of strings. -/
def PyVal.asStrList : PyVal → Except String (List String)
  | .nil => .ok []
  | .cons (.str s) tl => do
      let rest ← tl.asStrList
      .ok (s :: rest)
  | _ => .error "expected a list of strings"

/-- Modelled from the spec: the `JobStatus` enumeration
(`dpdispatcher/JobStatus.py`, a module of this repository that is not under
`src/`); per the glossary it has exactly the members `unsubmitted`, `waiting`,
`running`, `completing`, `finished`, `terminated`, `unknown`. -/
inductive JobStatus where
  | unsubmitted
  | waiting
  | running
  | completing
  | finished
  | terminated
  | unknown
  deriving DecidableEq

/-- Python name of a `JobStatus` member, used when a job state is serialized. -/
def JobStatus.pyName : JobStatus → String
  | .unsubmitted => "JobStatus.unsubmitted"
  | .waiting => "JobStatus.waiting"
  | .running => "JobStatus.running"
  | .completing => "JobStatus.completing"
  | .finished => "JobStatus.finished"
  | .terminated => "JobStatus.terminated"
  | .unknown => "JobStatus.unknown"

/-- Serialized form of the `job_state` field (`None` before any refresh). -/
def jobStateVal : Option JobStatus → PyVal
  | Option.none => .pynone
  | some st => .str st.pyName

/-- Decode a serialized `job_state` back to the canonical in-memory form. -/
def jobStateOf (v : PyVal) : Except String (Option JobStatus) :=
  match v with
  | .pynone => .ok Option.none
  | .str s =>
      if s = "JobStatus.unsubmitted" then .ok (some .unsubmitted)
      else if s = "JobStatus.waiting" then .ok (some .waiting)
      else if s = "JobStatus.running" then .ok (some .running)
      else if s = "JobStatus.completing" then .ok (some .completing)
      else if s = "JobStatus.finished" then .ok (some .finished)
      else if s = "JobStatus.terminated" then .ok (some .terminated)
      else if s = "JobStatus.unknown" then .ok (some .unknown)
      else .error "bad job_state"
  | _ => .error "bad job_state"

/-- `Resources.__init__` stores the six serialized attributes
(`number_node`, `cpu_per_node`, `gpu_per_node`, `queue_name`, `group_size`,
`if_cuda_multi_devices`); the unserialized runtime counter `in_use` and the
external `SlurmResources` subtype are not needed by any claim. -/
structure Resources where
  number_node : Int
  cpu_per_node : Int
  gpu_per_node : Int
  queue_name : String
  group_size : Int
  if_cuda_multi_devices : Bool
  deriving DecidableEq

/-- `Resources.serialize`: the six attributes in insertion order. -/
def Resources.serialize (r : Resources) : PyVal :=
  PyVal.ofDict
    [("number_node", .int r.number_node),
     ("cpu_per_node", .int r.cpu_per_node),
     ("gpu_per_node", .int r.gpu_per_node),
     ("queue_name", .str r.queue_name),
     ("group_size", .int r.group_size),
     ("if_cuda_multi_devices", .bool r.if_cuda_multi_devices)]

/-- The key list `Resources.deserialize` expects for a plain `Resources`. -/
def resourcesKeys : List String :=
  ["number_node", "cpu_per_node", "gpu_per_node", "queue_name", "group_size",
   "if_cuda_multi_devices"]

/-- `Resources.deserialize` (`cls(**resources_dict)` branch).  The
`slurm_sbatch_dict` branch constructs the external `SlurmResources` subtype
(`dpdispatcher/slurm.py`, outside `src/`) and is embedded as an error; no claim
exercises it. -/
def Resources.deserialize (d : PyVal) : Except String Resources :=
  if (d.lookupKey "slurm_sbatch_dict").isSome then
    .error "SlurmResources is external"
  else if d.dictKeys ≠ resourcesKeys then
    .error "unexpected keyword arguments"
  else do
    let nn ← (d.lookupKey "number_node").getD .pynone |>.asInt
    let cpn ← (d.lookupKey "cpu_per_node").getD .pynone |>.asInt
    let gpn ← (d.lookupKey "gpu_per_node").getD .pynone |>.asInt
    let qn ← (d.lookupKey "queue_name").getD .pynone |>.asStr
    let gs ← (d.lookupKey "group_size").getD .pynone |>.asInt
    let cmd ← (d.lookupKey "if_cuda_multi_devices").getD .pynone |>.asBool
    .ok ⟨nn, cpn, gpn, qn, gs, cmd⟩

/-- `Task.__init__` stores the seven serialized attributes.  `Task` is
immutable after construction; `task_need_resources` (a Python float in `(0,1]`)
is embedded as a rational. -/
structure Task where
  command : String
  task_work_path : String
  forward_files : List String
  backward_files : List String
  outlog : String
  errlog : String
  task_need_resources : Rat
  deriving DecidableEq

/-- `Task.serialize`: the seven attributes in insertion order. -/
def Task.serialize (t : Task) : PyVal :=
  PyVal.ofDict
    [("command", .str t.command),
     ("task_work_path", .str t.task_work_path),
     ("forward_files", PyVal.ofList (t.forward_files.map .str)),
     ("backward_files", PyVal.ofList (t.backward_files.map .str)),
     ("outlog", .str t.outlog),
     ("errlog", .str t.errlog),
     ("task_need_resources", .rat t.task_need_resources)]

/-- `Task.get_hash`: SHA1 of the canonical serialization. -/
def Task.get_hash (t : Task) : String := sha1hex t.serialize

/-- The key list `Task.deserialize` expects (`cls(**task_dict)`). -/
def taskKeys : List String :=
  ["command", "task_work_path", "forward_files", "backward_files", "outlog",
   "errlog", "task_need_resources"]

/-- `Task.deserialize` (`cls(**task_dict)`). -/
def Task.deserialize (d : PyVal) : Except String Task :=
  if d.dictKeys ≠ taskKeys then
    .error "unexpected keyword arguments"
  else do
    let c ← (d.lookupKey "command").getD .pynone |>.asStr
    let wp ← (d.lookupKey "task_work_path").getD .pynone |>.asStr
    let ff ← (d.lookupKey "forward_files").getD .pynone |>.asStrList
    let bf ← (d.lookupKey "backward_files").getD .pynone |>.asStrList
    let ol ← (d.lookupKey "outlog").getD .pynone |>.asStr
    let el ← (d.lookupKey "errlog").getD .pynone |>.asStr
    let tnr ← (d.lookupKey "task_need_resources").getD .pynone |>.asRat
    .ok ⟨c, wp, ff, bf, ol, el, tnr⟩

/-- Expect a list value (Python iteration over a non-list raises). -/
def PyVal.asList : PyVal → Except String (List PyVal)
  | .nil => .ok []
  | .cons hd tl => do
      let rest ← tl.asList
      .ok (hd :: rest)
  | _ => .error "expected a list"

/-- Dict indexing `d[k]`; a missing key raises `KeyError`. -/
def PyVal.item (d : PyVal) (k : String) : Except String PyVal :=
  match d.lookupKey k with
  | some v => .ok v
  | Option.none => .error ("KeyError: " ++ k)

/-- `Job.__init__`: the payload (`job_task_list`, a deep copy of the
resources of the Submission) plus the runtime triple, initialized to
`job_state = None`, `job_id = ""`, `fail_count = 0`.  The `batch`
back-reference is environmental and is passed to the operations that need it
instead of being stored. -/
structure Job where
  job_task_list : List Task
  resources : Resources
  job_state : Option JobStatus
  job_id : String
  fail_count : Nat
  deriving DecidableEq

/-- The static `job_content_dict` built by `Job.serialize` before the runtime
entries are appended: the task list and the resources, in insertion order. -/
def Job.contentEntries (j : Job) : List (String × PyVal) :=
  [("job_task_list", PyVal.ofList (j.job_task_list.map Task.serialize)),
   ("resources", j.resources.serialize)]

/-- `Job.serialize`: a single-entry dict `{job_hash: content}`; the SHA1 key is
computed over the static content, and the runtime triple is appended to the
content only when `if_static` is false. -/
def Job.serialize (j : Job) (if_static : Bool) : PyVal :=
  let job_hash := sha1hex (PyVal.ofDict j.contentEntries)
  if if_static then
    PyVal.ofDict [(job_hash, PyVal.ofDict j.contentEntries)]
  else
    PyVal.ofDict [(job_hash, PyVal.ofDict (j.contentEntries ++
      [("job_state", jobStateVal j.job_state),
       ("job_id", .str j.job_id),
       ("fail_count", .int (j.fail_count : Int))]))]

/-- `Job.get_hash`: the key of the single-entry static serialization. -/
def Job.get_hash (j : Job) : String := sha1hex (PyVal.ofDict j.contentEntries)

/-- `Job.__repr__`: the textual form of the (runtime-inclusive) serialization;
this is the `{job}` interpolated into the error messages. -/
def Job.reprStr (j : Job) : String := (j.serialize false).enc

/-- `Job.__init__` as called by `generate_jobs` (fresh runtime triple). -/
def Job.init (job_task_list : List Task) (resources : Resources) : Job :=
  ⟨job_task_list, resources, Option.none, "", 0⟩

/-- `Job.__eq__`: equality of the static serializations. -/
def Job.eqStatic (a b : Job) : Prop := a.serialize true = b.serialize true

/-- `Job.register_job_id` composed with `Batch.do_submit`: `Job.submit_job`
records the scheduler-assigned id returned by the (external) batch. -/
def Job.submit_job (newId : String) (j : Job) : Job := {j with job_id := newId}

/-- `Job.get_job_state`: store the status reported by `Batch.check_status`. -/
def Job.get_job_state (check : JobStatus) (j : Job) : Job :=
  {j with job_state := some check}

/-- `Job.handle_unexpected_job_state`, parameterized by what the external
batch answers: `check` is the status `Batch.check_status` reports for the
refresh inside the handler, `newId` the id `Batch.do_submit` returns.  The
result carries the post-state and the number of `do_submit` calls performed
(0 or 1).  Branching is on the entry state captured at the top of the method. -/
def Job.handle_unexpected_job_state (check : JobStatus) (newId : String)
    (j : Job) : Except String (Job × Nat) :=
  match j.job_state with
  | some JobStatus.unknown =>
      .error ("job_state for job " ++ j.reprStr ++ " is unknown")
  | some JobStatus.terminated =>
      if j.fail_count > 5 then
        .error ("job:job " ++ j.reprStr ++ " failed 5 times")
      else
        let j1 := {j with fail_count := j.fail_count + 1}
        .ok ((j1.submit_job newId).get_job_state check, 1)
  | some JobStatus.unsubmitted =>
      if j.fail_count > 5 then
        .error ("job:job " ++ j.reprStr ++ " failed 5 times")
      else
        let j1 := {j with fail_count := j.fail_count + 1}
        .ok ((j1.submit_job newId).get_job_state check, 1)
  | _ => .ok (j, 0)

/-- `Job.deserialize`: requires a single-entry dict, rebuilds the payload and
adopts the stored runtime triple. -/
def Job.deserialize (d : PyVal) : Except String Job :=
  match d with
  | .dcons _ content .dnil => do
      let tlv ← content.item "job_task_list"
      let tl ← tlv.asList
      let tasks ← tl.mapM Task.deserialize
      let rv ← content.item "resources"
      let res ← Resources.deserialize rv
      let stv ← content.item "job_state"
      let st ← jobStateOf stv
      let idv ← content.item "job_id"
      let jid ← idv.asStr
      let fcv ← content.item "fail_count"
      let fc ← fcv.asInt
      if fc < 0 then .error "bad fail_count"
      else .ok ⟨tasks, res, st, jid, fc.toNat⟩
  | _ => .error "json file may be broken, len of job_dict keys must be 1"

/-- `Submission.__init__` attributes; the `batch` back-reference is
environmental and passed to the operations that need it. -/
structure Submission where
  work_base : String
  resources : Resources
  forward_common_files : List String
  backward_common_files : List String
  submission_hash : String
  belonging_tasks : List Task
  belonging_jobs : List Job
  deriving DecidableEq

/-- `Submission.serialize`: the four static attributes plus the belonging
jobs, in insertion order; `belonging_tasks` is not serialized. -/
def Submission.serialize (s : Submission) (if_static : Bool) : PyVal :=
  PyVal.ofDict
    [("work_base", .str s.work_base),
     ("resources", s.resources.serialize),
     ("forward_common_files", PyVal.ofList (s.forward_common_files.map .str)),
     ("backward_common_files", PyVal.ofList (s.backward_common_files.map .str)),
     ("belonging_jobs",
        PyVal.ofList (s.belonging_jobs.map (fun j => j.serialize if_static)))]

/-- `Submission.get_hash`: SHA1 of the static serialization. -/
def Submission.get_hash (s : Submission) : String := sha1hex (s.serialize true)

/-- `Submission.__eq__`: equality of the static serializations (disregarding
the runtime information of the belonging jobs). -/
def Submission.eqStatic (a b : Submission) : Prop :=
  a.serialize true = b.serialize true

/-- `Submission.bind_batch` as it affects the Submission itself: recompute
`submission_hash`.  (Setting the back-references and notifying the external
context have no effect on the embedded state.) -/
def Submission.bind_batch (s : Submission) : Submission :=
  {s with submission_hash := s.get_hash}

/-- `Submission.__init__`: empty task and job lists, then `bind_batch` sets
the hash. -/
def Submission.init (work_base : String) (resources : Resources)
    (forward_common_files backward_common_files : List String) : Submission :=
  let s : Submission :=
    ⟨work_base, resources, forward_common_files, backward_common_files,
     "", [], []⟩
  s.bind_batch

/-- `Submission.register_task`: raises when any Job has been generated
(in Python the message formatting itself even raises a `KeyError` while
building the `RuntimeError`, because `format` is given the submission
positionally for a named field, but either way an exception propagates with
`belonging_tasks` untouched), otherwise appends the task.
The pair is (raised-or-returned, post-state). -/
def Submission.register_task (t : Task) (s : Submission) :
    Except String Unit × Submission :=
  if s.belonging_jobs ≠ [] then
    (.error "Not allowed to register tasks after generating jobs.", s)
  else
    (.ok (), {s with belonging_tasks := s.belonging_tasks ++ [t]})

/-- `Submission.register_task_list`: same guard, extends with the whole list. -/
def Submission.register_task_list (ts : List Task) (s : Submission) :
    Except String Unit × Submission :=
  if s.belonging_jobs ≠ [] then
    (.error "Not allowed to register tasks after generating jobs.", s)
  else
    (.ok (), {s with belonging_tasks := s.belonging_tasks ++ ts})

/-- The seeded pseudo-random generator of Python (`random.seed(42)` then the draws
consumed by `random.shuffle`; the `random` module is standard-library code
external to the dispatcher).  Modelled as a fixed deterministic integer
stream: a 64-bit linear congruential generator seeded with the constant 42.
Every claim depends only on the stream being one fixed deterministic
function of the constant seed, never on the particular values drawn. -/
def randStream : Nat → Nat
  | 0 => (6364136223846793005 * 42 + 1442695040888963407) % (2 ^ 64)
  | k + 1 => (6364136223846793005 * randStream k + 1442695040888963407) % (2 ^ 64)

/-- One Fisher-Yates swap `x[i], x[j] = x[j], x[i]` on a list of naturals. -/
def swapL (l : List Nat) (i j : Nat) : List Nat :=
  (l.set i (l.getD j 0)).set j (l.getD i 0)

/-- The `random.shuffle` loop: `for i in reversed(range(1, n)): j = draw in
[0, i]; swap x[i] x[j]`, with the draws taken from the seeded stream. -/
def fyStep : Nat → List Nat → List Nat
  | 0, l => l
  | i + 1, l => fyStep i (swapL l (i + 1) (randStream i % (i + 2)))

/-- `random.seed(42); random_task_index = list(range(task_num));
random.shuffle(random_task_index)`. -/
def shuffle42 (n : Nat) : List Nat := fyStep (n - 1) (List.range n)

/-- Python `range(0, stop, step)` (for positive `step`). -/
def rangeBy (stop step : Nat) : List Nat :=
  List.range' 0 ((stop + step - 1) / step) step

/-- Python slice `l[start : start + len]`. -/
def pySlice (l : List Nat) (start len : Nat) : List Nat :=
  (l.drop start).take len

/-- The grouping comprehension
`[random_task_index[ii : ii + group_size] for ii in range(0, task_num,
group_size)]`. -/
def chunked (g : Nat) (l : List Nat) : List (List Nat) :=
  (rangeBy l.length g).map (fun ii => pySlice l ii g)

/-- Fallback element for in-range list indexing (`l[jj]` never sees it). -/
def dTask : Task := ⟨"", "", [], [], "", "", 1⟩

/-- `Submission.generate_jobs`: validate `group_size` and the task count,
shuffle the index list with the constant seed, split it into contiguous
chunks of `group_size`, build one Job per chunk (deep-copying the resources,
which for immutable values is the value itself), append the Jobs and
recompute `submission_hash`. -/
def Submission.generate_jobs (s : Submission) : Except String Submission :=
  let group_size := s.resources.group_size
  if group_size < 1 then .error "group_size must be a positive number"
  else
    let task_num := s.belonging_tasks.length
    if task_num = 0 then .error "submission must have at least 1 task"
    else
      let random_task_index := shuffle42 task_num
      let random_task_index_ll := chunked group_size.toNat random_task_index
      let jobs := random_task_index_ll.map
        (fun ii => Job.init (ii.map (fun jj => s.belonging_tasks.getD jj dTask))
          s.resources)
      let s1 := {s with belonging_jobs := s.belonging_jobs ++ jobs}
      .ok {s1 with submission_hash := s1.get_hash}

/-- `Submission.get_submission_state`: refresh the status of every belonging Job
from the external batch (`check` is `Batch.check_status`). -/
def Submission.get_submission_state (check : Job → JobStatus) (s : Submission) :
    Submission :=
  {s with belonging_jobs :=
    s.belonging_jobs.map (fun j => j.get_job_state (check j))}

/-- `Submission.submission_to_json` as it affects the embedded state: it
refreshes the submission state once more before the (external) file write. -/
def Submission.submission_to_json (check : Job → JobStatus) (s : Submission) :
    Submission :=
  s.get_submission_state check

/-- `Submission.check_all_finished`: refresh all job states, write the JSON
snapshot when any job is `terminated` or `unknown` (the write itself refreshes
the state once more), and return `False` when any job is in one of the six
alive states.  Result: (post-state, snapshot-written flag, return value). -/
def Submission.check_all_finished (check : Job → JobStatus) (s : Submission) :
    Submission × Bool × Bool :=
  let s1 := s.get_submission_state check
  let snap := s1.belonging_jobs.any (fun j =>
    decide (j.job_state = some JobStatus.terminated ∨
            j.job_state = some JobStatus.unknown))
  let s2 := if snap then s1.submission_to_json check else s1
  let alive := s2.belonging_jobs.any (fun j =>
    decide (j.job_state = some JobStatus.running ∨
            j.job_state = some JobStatus.waiting ∨
            j.job_state = some JobStatus.unsubmitted ∨
            j.job_state = some JobStatus.completing ∨
            j.job_state = some JobStatus.terminated ∨
            j.job_state = some JobStatus.unknown))
  (s2, snap, !alive)

/-- `Submission.deserialize`: rebuild the static attributes, construct the
Submission (which computes a hash over the job-less state), adopt the
deserialized belonging jobs and recompute `submission_hash`. -/
def Submission.deserialize (d : PyVal) : Except String Submission := do
  let wbv ← d.item "work_base"
  let wb ← wbv.asStr
  let rv ← d.item "resources"
  let res ← Resources.deserialize rv
  let fv ← d.item "forward_common_files"
  let fcf ← fv.asStrList
  let bv ← d.item "backward_common_files"
  let bcf ← bv.asStrList
  let s0 := Submission.init wb res fcf bcf
  let jv ← d.item "belonging_jobs"
  let jl ← jv.asList
  let jobs ← jl.mapM Job.deserialize
  let s1 := {s0 with belonging_jobs := jobs}
  .ok {s1 with submission_hash := s1.get_hash}

/-- `Submission.try_recover_from_json`: `remote` is the content of the file
`{submission_hash}.json` on the remote side if it exists (`Context` file
access is external).  If present: deserialize, compare statically; on match
adopt the prior jobs and re-bind (recomputing the hash); on mismatch raise
`Recover failed.`; if absent do nothing. -/
def Submission.try_recover_from_json (remote : Option PyVal) (s : Submission) :
    Except String Submission :=
  match remote with
  | Option.none => .ok s
  | some d =>
      match Submission.deserialize d with
      | .error e => .error e
      | .ok recov =>
          if s.serialize true = recov.serialize true then
            .ok ({s with belonging_jobs := recov.belonging_jobs}).bind_batch
          else
            .error "Recover failed."

/-- What the `time.sleep(10)` suspension point of the polling loop raises, if
anything: `KeyboardInterrupt` (user cancel), `SystemExit` (orderly exit
request), or any other exception. -/
inductive SleepExc where
  | keyboard
  | sysExit
  | other (msg : String)
  deriving DecidableEq

/-- How one iteration of the polling loop ends. -/
inductive IterOutcome where
  | continueLoop
  | exitc (code : Nat)
  | propagate (msg : String)
  deriving DecidableEq

/-- Observable effects of one polling-loop iteration: whether
`submission_to_json` ran, whether the diagnostic block naming the submission
hash was printed, and how the iteration ended. -/
structure IterResult where
  snapshotWritten : Bool
  diagnosticEmitted : Bool
  outcome : IterOutcome
  deriving DecidableEq

/-- One iteration of the `run_submission` polling loop (the
`try: time.sleep(10) / except … / else:` statement).  The `except` clauses
cover only the `try` block — the sleep — so `sleepExc` says what the sleep
raised; when the sleep completes, the `else` clause runs
`handle_unexpected_submission_state()`, and `handlerRaises` says what that
handler raised, which no `except` clause covers. -/
def pollIteration (sleepExc : Option SleepExc) (handlerRaises : Option String) :
    IterResult :=
  match sleepExc with
  | some SleepExc.keyboard => ⟨true, true, .exitc 1⟩
  | some SleepExc.sysExit => ⟨true, true, .exitc 2⟩
  | some (SleepExc.other _) => ⟨true, true, .exitc 3⟩
  | Option.none =>
      match handlerRaises with
      | some m => ⟨false, false, .propagate m⟩
      | Option.none => ⟨false, false, .continueLoop⟩

/-- Steps of the `run_submission` pre-loop phase, as trace events. -/
inductive DriverEv where
  | recoverEv
  | uploadEv
  | handleEv
  | snapshotEv
  deriving DecidableEq

/-- The pre-loop phase of `run_submission` (before the `while` loop):
`try_recover_from_json()`, then, unless `check_all_finished()` held,
`upload_jobs()` and `handle_unexpected_submission_state()`.  The statement
that follows them, `self.submission_to_json`, is a bare attribute reference
without a call, so it performs no snapshot write and contributes no event. -/
def runPreLoop (allFinished : Bool) : List DriverEv :=
  if allFinished then [DriverEv.recoverEv]
  else [DriverEv.recoverEv, DriverEv.uploadEv, DriverEv.handleEv]

/-- Repeated driver rounds against a batch whose `check_status` keeps
answering `check`: each round refreshing the state then calling
`handle_unexpected_job_state`, accumulating the number of `do_submit` calls.
Used to count submit attempts across the polling loop. -/
def iterateHandles (check : JobStatus) (newId : String) :
    Nat → Job → Except String (Job × Nat)
  | 0, j => .ok (j, 0)
  | k + 1, j =>
      match j.handle_unexpected_job_state check newId with
      | .error e => .error e
      | .ok (j1, c1) =>
          match iterateHandles check newId k j1 with
          | .error e => .error e
          | .ok (j2, c2) => .ok (j2, c1 + c2)

/-- Recursive form of the grouping comprehension, convenient for induction:
`c` counts the chunks still to produce. -/
def chunkRec (g : Nat) : Nat → List Nat → List (List Nat)
  | 0, _ => []
  | c + 1, l => l.take g :: chunkRec g c (l.drop g)

/-- Example resources: `group_size = 2`. -/
def rEx : Resources := ⟨1, 4, 0, "normal", 2, false⟩

/-- Example task 1. -/
def tEx1 : Task := ⟨"cmd1", "dir1", [], [], "log", "err", 1⟩

/-- Example task 2. -/
def tEx2 : Task := ⟨"cmd2", "dir2", [], [], "log", "err", 1⟩

/-- Example task 3. -/
def tEx3 : Task := ⟨"cmd3", "dir3", [], [], "log", "err", 1⟩

/-- Example submission with three registered tasks and no jobs yet. -/
def sEx : Submission :=
  {Submission.init "wb" rEx [] [] with belonging_tasks := [tEx1, tEx2, tEx3]}

/-- `sEx` after `generate_jobs` (the error branch is never taken). -/
def sGen : Submission :=
  match sEx.generate_jobs with
  | .ok s => s
  | .error _ => sEx

/-- Example job whose refreshed state is `terminated`. -/
def jExT : Job :=
  {Job.init [tEx1] rEx with job_state := some JobStatus.terminated}

/-- Example job with runtime progress recorded. -/
def jW1 : Job := ⟨[tEx1], rEx, some JobStatus.running, "42", 3⟩

/-- The same payload as `jW1` with a fresh runtime triple. -/
def jW2 : Job := ⟨[tEx1], rEx, Option.none, "", 0⟩

/-- Example submission owning `jW1`. -/
def sW1 : Submission := ⟨"wb", rEx, [], [], "", [], [jW1]⟩

/-- Example submission owning `jW2`: statically identical to `sW1`, runtime
differs. -/
def sW2 : Submission := ⟨"wb", rEx, [], [], "", [], [jW2]⟩

/-- `sGen` with runtime progress recorded on every job (as a prior run would
have left it); its non-static serialization plays the snapshot file. -/
def sMut : Submission :=
  {sGen with belonging_jobs := sGen.belonging_jobs.map (fun j =>
    {j with job_state := some JobStatus.running, job_id := "77",
            fail_count := 2})}

/-- Example job refreshed to `unsubmitted` (what a batch reports for a job
that was never submitted). -/
def jExU : Job :=
  {Job.init [tEx2] rEx with job_state := some JobStatus.unsubmitted}

/-- The Submission deserialized back from the snapshot `sMut.serialize false`
(the error branch is never taken). -/
def recovEx : Submission :=
  match Submission.deserialize (sMut.serialize false) with
  | .ok r => r
  | .error _ => sEx

/-- The chunk list `generate_jobs` builds for a submission: the seeded shuffle
of the task indices, split into contiguous `group_size`-pieces. -/
def genChunks (s : Submission) : List (List Nat) :=
  chunked s.resources.group_size.toNat (shuffle42 s.belonging_tasks.length)

/-- The Jobs `generate_jobs` appends: one per chunk, each carrying the tasks
at the indices of the chunk and the resources of the submission. -/
def genJobsList (s : Submission) : List Job :=
  (genChunks s).map (fun ii =>
    Job.init (ii.map (fun jj => s.belonging_tasks.getD jj dTask)) s.resources)

/-! ## Helper lemmas -/

/-- The static serialization of a Job is a function of its payload alone. -/
theorem job_serialize_static_congr (a b : Job)
    (h1 : a.job_task_list = b.job_task_list) (h2 : a.resources = b.resources) :
    a.serialize true = b.serialize true := by
  simp [Job.serialize, Job.contentEntries, h1, h2]

/-- Static job serialization of a list is determined by the payloads. -/
theorem map_job_serialize_static_congr :
    ∀ (l1 l2 : List Job),
      l1.map (fun j => (j.job_task_list, j.resources)) =
        l2.map (fun j => (j.job_task_list, j.resources)) →
      l1.map (fun j => j.serialize true) = l2.map (fun j => j.serialize true) := by
  intro l1
  induction l1 with
  | nil =>
      intro l2 h
      cases l2 with
      | nil => rfl
      | cons b t => simp at h
  | cons a t ih =>
      intro l2 h
      cases l2 with
      | nil => simp at h
      | cons b t2 =>
          simp only [List.map_cons, List.cons.injEq, Prod.mk.injEq] at h
          obtain ⟨⟨h1, h2⟩, h3⟩ := h
          simp only [List.map_cons, List.cons.injEq]
          exact ⟨job_serialize_static_congr a b h1 h2, ih t2 h3⟩

/-! ## C8 -/

/-- C8: runtime isolation of equality.  Two Submissions that agree on
`work_base`, `resources`, the common-file lists, and the static payload
(task list and resources) of each belonging Job are `__eq__`-equal, no matter
what `job_state`, `job_id`, `fail_count` their Jobs carry: `Submission.__eq__`
(and `Job.__eq__`) compares the static serialization, which excludes the
runtime triple. -/
theorem C8_runtime_isolation (s1 s2 : Submission)
    (hwb : s1.work_base = s2.work_base)
    (hres : s1.resources = s2.resources)
    (hfcf : s1.forward_common_files = s2.forward_common_files)
    (hbcf : s1.backward_common_files = s2.backward_common_files)
    (hjobs : s1.belonging_jobs.map (fun j => (j.job_task_list, j.resources)) =
             s2.belonging_jobs.map (fun j => (j.job_task_list, j.resources))) :
    s1.eqStatic s2 := by
  unfold Submission.eqStatic Submission.serialize
  rw [hwb, hres, hfcf, hbcf, map_job_serialize_static_congr _ _ hjobs]

/-- C8 witness: `sW1` and `sW2` differ in the `job_state`, `job_id`
and `fail_count` (`running`/`"42"`/`3` against `None`/`""`/`0`), yet they are
statically equal. -/
theorem C8_runtime_isolation_witness :
    sW1.eqStatic sW2 ∧ jW1.job_state ≠ jW2.job_state ∧
      jW1.job_id ≠ jW2.job_id ∧ jW1.fail_count ≠ jW2.fail_count :=
  ⟨C8_runtime_isolation sW1 sW2 rfl rfl rfl rfl rfl,
   by decide, by decide, by decide⟩

/-! ## C9 -/

/-- C9: registration lock with atomicity.  With any generated Job present,
`register_task` and `register_task_list` raise and leave the Submission (in
particular `belonging_tasks`) unchanged; with no generated Job they succeed
and append the given task(s) in order. -/
theorem C9_registration_lock (s : Submission) (t : Task) (ts : List Task) :
    (s.belonging_jobs ≠ [] →
      (∃ e, (s.register_task t).1 = .error e) ∧ (s.register_task t).2 = s ∧
      (∃ e, (s.register_task_list ts).1 = .error e) ∧
      (s.register_task_list ts).2 = s)
  ∧ (s.belonging_jobs = [] →
      (s.register_task t).1 = .ok () ∧
      (s.register_task t).2.belonging_tasks = s.belonging_tasks ++ [t] ∧
      (s.register_task_list ts).1 = .ok () ∧
      (s.register_task_list ts).2.belonging_tasks = s.belonging_tasks ++ ts) := by
  constructor
  · intro h
    simp [Submission.register_task, Submission.register_task_list, h]
  · intro h
    simp [Submission.register_task, Submission.register_task_list, h]

/-- C9 witness: on `sGen` (whose `generate_jobs` has run, leaving two Jobs),
`register_task` raises and the Submission is unchanged. -/
theorem C9_registration_lock_witness :
    (∃ e, (sGen.register_task tEx1).1 = .error e) ∧
    (sGen.register_task tEx1).2 = sGen ∧
    (∃ e, (sGen.register_task_list [tEx1]).1 = .error e) ∧
    (sGen.register_task_list [tEx1]).2 = sGen :=
  (C9_registration_lock sGen tEx1 [tEx1]).1 (by decide)

/-! ## C10 -/

/-- C10: `Submission.serialize` — and hence `get_hash`, `submission_hash`
and static equality — omits `belonging_tasks` entirely: replacing the
registered task list changes neither serialization (static or not) nor the
hash, the two Submissions are `__eq__`-equal, and `register_task` /
`register_task_list` never change the `submission_hash` attribute. -/
theorem C10_tasks_not_serialized (s : Submission) (ts : List Task)
    (b : Bool) (t : Task) :
    ({s with belonging_tasks := ts}).serialize b = s.serialize b
  ∧ ({s with belonging_tasks := ts}).get_hash = s.get_hash
  ∧ ({s with belonging_tasks := ts}).eqStatic s
  ∧ (s.register_task t).2.submission_hash = s.submission_hash
  ∧ (s.register_task_list ts).2.submission_hash = s.submission_hash := by
  refine ⟨rfl, rfl, rfl, ?_, ?_⟩
  · unfold Submission.register_task
    split <;> rfl
  · unfold Submission.register_task_list
    split <;> rfl

/-! ## C5 -/

/-- Every job of a refreshed submission carries a reported state. -/
theorem get_submission_state_shape (check : Job → JobStatus) (s : Submission) :
    ∀ j ∈ (s.get_submission_state check).belonging_jobs,
      ∃ st, j.job_state = some st := by
  intro j hj
  simp only [Submission.get_submission_state, List.mem_map] at hj
  obtain ⟨j0, _, rfl⟩ := hj
  exact ⟨check j0, rfl⟩

/-- A reported state outside the six alive states is `finished`. -/
theorem not_alive_iff_finished (st : JobStatus) :
    ¬(st = JobStatus.running ∨ st = JobStatus.waiting ∨
      st = JobStatus.unsubmitted ∨ st = JobStatus.completing ∨
      st = JobStatus.terminated ∨ st = JobStatus.unknown) ↔
    st = JobStatus.finished := by
  cases st <;> simp

/-- Over jobs that all carry a reported state, the alive scan is false exactly
when every job is `finished`. -/
theorem alive_scan_false_iff (l : List Job)
    (h : ∀ j ∈ l, ∃ st, j.job_state = some st) :
    (l.any (fun j =>
      decide (j.job_state = some JobStatus.running ∨
              j.job_state = some JobStatus.waiting ∨
              j.job_state = some JobStatus.unsubmitted ∨
              j.job_state = some JobStatus.completing ∨
              j.job_state = some JobStatus.terminated ∨
              j.job_state = some JobStatus.unknown)) = false) ↔
    ∀ j ∈ l, j.job_state = some JobStatus.finished := by
  rw [List.any_eq_false]
  constructor
  · intro hall j hj
    obtain ⟨st, hst⟩ := h j hj
    have hne := hall j hj
    rw [hst]
    rw [hst] at hne
    simp only [decide_eq_true_eq, Option.some.injEq] at hne
    rw [(not_alive_iff_finished st).mp hne]
  · intro hall j hj
    have hst := hall j hj
    simp [hst]

/-- C5: `check_all_finished` first refreshes the status of every belonging Job (its
post-state is the once- or twice-refreshed submission, so the predicate sees
only reported states), sets the snapshot-write flag exactly when some
refreshed Job is `terminated` or `unknown`, and returns `true` exactly when
the state of every Job is `finished` — any of the six other states yields
`false`. -/
theorem C5_check_all_finished (check : Job → JobStatus) (s : Submission) :
    ((s.check_all_finished check).1 = s.get_submission_state check ∨
     (s.check_all_finished check).1 =
       (s.get_submission_state check).get_submission_state check)
  ∧ ((s.check_all_finished check).2.1 = true ↔
      ∃ j ∈ (s.get_submission_state check).belonging_jobs,
        (j.job_state = some JobStatus.terminated ∨
         j.job_state = some JobStatus.unknown))
  ∧ (∀ j ∈ (s.check_all_finished check).1.belonging_jobs,
      ∃ st, j.job_state = some st)
  ∧ ((s.check_all_finished check).2.2 = true ↔
      ∀ j ∈ (s.check_all_finished check).1.belonging_jobs,
        j.job_state = some JobStatus.finished) := by
  unfold Submission.check_all_finished Submission.submission_to_json
  by_cases hsnap : ((s.get_submission_state check).belonging_jobs.any (fun j =>
      decide (j.job_state = some JobStatus.terminated ∨
              j.job_state = some JobStatus.unknown))) = true
  · simp only [hsnap, if_true]
    refine ⟨Or.inr trivial, ?_, ?_, ?_⟩
    · simp only [hsnap, true_iff]
      rw [List.any_eq_true] at hsnap
      obtain ⟨j, hj, hdec⟩ := hsnap
      exact ⟨j, hj, of_decide_eq_true hdec⟩
    · exact get_submission_state_shape check _
    · rw [Bool.not_eq_true']
      exact alive_scan_false_iff _ (get_submission_state_shape check _)
  · simp only [hsnap, if_false, Bool.false_eq_true]
    refine ⟨Or.inl trivial, ?_, ?_, ?_⟩
    · simp only [false_iff]
      intro ⟨j, hj, hor⟩
      rw [List.any_eq_true] at hsnap
      exact hsnap ⟨j, hj, decide_eq_true hor⟩
    · exact get_submission_state_shape check s
    · rw [Bool.not_eq_true']
      exact alive_scan_false_iff _ (get_submission_state_shape check s)

/-! ## C2 -/

/-- Handling a `terminated` job within budget: increment `fail_count`, submit
(recording the new id: one `do_submit` call), refresh. -/
theorem handle_terminated_ok (check : JobStatus) (newId : String) (j : Job)
    (hst : j.job_state = some JobStatus.terminated) (hfc : j.fail_count ≤ 5) :
    j.handle_unexpected_job_state check newId =
      .ok (⟨j.job_task_list, j.resources, some check, newId,
            j.fail_count + 1⟩, 1) := by
  unfold Job.handle_unexpected_job_state
  rw [hst]
  simp [Nat.not_lt.mpr hfc, Job.submit_job, Job.get_job_state]

/-- Handling a `terminated` job over budget: fatal error naming the job,
without incrementing or submitting. -/
theorem handle_terminated_fatal (check : JobStatus) (newId : String) (j : Job)
    (hst : j.job_state = some JobStatus.terminated) (hfc : 5 < j.fail_count) :
    j.handle_unexpected_job_state check newId =
      .error ("job:job " ++ j.reprStr ++ " failed 5 times") := by
  unfold Job.handle_unexpected_job_state
  rw [hst]
  simp [hfc]

/-- As long as the total budget is respected, `k` perpetually-terminated
rounds perform exactly `k` submits and add `k` to `fail_count`. -/
theorem iterateHandles_terminated_ok (newId : String) :
    ∀ (k : Nat) (j : Job), j.job_state = some JobStatus.terminated →
      j.fail_count + k ≤ 6 →
      iterateHandles JobStatus.terminated newId k j =
        .ok (⟨j.job_task_list, j.resources, some JobStatus.terminated,
              if k = 0 then j.job_id else newId, j.fail_count + k⟩, k) := by
  intro k
  induction k with
  | zero =>
      intro j hst _
      simp only [iterateHandles, reduceIte, Nat.add_zero]
      rw [← hst]
  | succ k ih =>
      intro j hst hb
      have hfc : j.fail_count ≤ 5 := by omega
      simp only [iterateHandles]
      rw [handle_terminated_ok JobStatus.terminated newId j hst hfc]
      dsimp only
      rw [ih ⟨j.job_task_list, j.resources, some JobStatus.terminated, newId,
            j.fail_count + 1⟩ rfl (by dsimp only; omega)]
      simp only [Except.ok.injEq, Prod.mk.injEq, Job.mk.injEq]
      refine ⟨⟨trivial, trivial, trivial, ?_, by omega⟩, by omega⟩
      by_cases hk : k = 0 <;> simp [hk]

/-- Splitting a run of handler rounds. -/
theorem iterateHandles_add (check : JobStatus) (newId : String) :
    ∀ (a b : Nat) (j : Job),
      iterateHandles check newId (a + b) j =
        match iterateHandles check newId a j with
        | .error e => .error e
        | .ok (j1, c1) =>
            match iterateHandles check newId b j1 with
            | .error e => .error e
            | .ok (j2, c2) => .ok (j2, c1 + c2) := by
  intro a
  induction a with
  | zero =>
      intro b j
      rw [Nat.zero_add]
      cases h : iterateHandles check newId b j with
      | error e => simp [iterateHandles, h]
      | ok p => cases p with
          | mk j2 c2 => simp [iterateHandles, h]
  | succ a ih =>
      intro b j
      rw [Nat.succ_add]
      simp only [iterateHandles]
      cases hh : j.handle_unexpected_job_state check newId with
      | error e => rfl
      | ok p =>
          cases p with
          | mk j1 c1 =>
              dsimp only
              rw [ih b j1]
              cases ha : iterateHandles check newId a j1 with
              | error e => rfl
              | ok q =>
                  cases q with
                  | mk j2 c2 =>
                      dsimp only
                      cases hb : iterateHandles check newId b j2 with
                      | error e => rfl
                      | ok r =>
                          cases r with
                          | mk j3 c3 => simp [Nat.add_assoc]

/-- C2: retry cap.  For a Job whose refreshed state is perpetually
`terminated` (the batch keeps answering `terminated`), each handling within
budget increments `fail_count` and performs exactly one submit followed by a
refresh; over budget it raises naming the job.  Starting from `fail_count = 0`,
six rounds perform exactly 6 submit attempts and the next round raises a
fatal error whose message contains the offending Job. -/
theorem C2_retry_cap (newId : String) (j : Job)
    (hst : j.job_state = some JobStatus.terminated)
    (hfc : j.fail_count = 0) :
    (∀ j2 : Job, j2.job_state = some JobStatus.terminated →
      (j2.fail_count ≤ 5 →
        j2.handle_unexpected_job_state JobStatus.terminated newId =
          .ok (⟨j2.job_task_list, j2.resources, some JobStatus.terminated,
                newId, j2.fail_count + 1⟩, 1)) ∧
      (5 < j2.fail_count →
        j2.handle_unexpected_job_state JobStatus.terminated newId =
          .error ("job:job " ++ j2.reprStr ++ " failed 5 times")))
  ∧ iterateHandles JobStatus.terminated newId 6 j =
      .ok (⟨j.job_task_list, j.resources, some JobStatus.terminated,
            newId, 6⟩, 6)
  ∧ iterateHandles JobStatus.terminated newId 7 j =
      .error ("job:job " ++
        (Job.mk j.job_task_list j.resources (some JobStatus.terminated)
          newId 6).reprStr ++ " failed 5 times") := by
  have h6 : iterateHandles JobStatus.terminated newId 6 j =
      .ok (⟨j.job_task_list, j.resources, some JobStatus.terminated,
            newId, 6⟩, 6) := by
    have := iterateHandles_terminated_ok newId 6 j hst (by omega)
    rw [hfc] at this
    simpa using this
  refine ⟨?_, h6, ?_⟩
  · intro j2 hst2
    exact ⟨fun hle => handle_terminated_ok _ newId j2 hst2 hle,
           fun hgt => handle_terminated_fatal _ newId j2 hst2 hgt⟩
  · have hsplit := iterateHandles_add JobStatus.terminated newId 6 1 j
    rw [h6] at hsplit
    dsimp only at hsplit
    have hlast : iterateHandles JobStatus.terminated newId 1
        ⟨j.job_task_list, j.resources, some JobStatus.terminated,
         newId, 6⟩ =
        .error ("job:job " ++
          (Job.mk j.job_task_list j.resources (some JobStatus.terminated)
            newId 6).reprStr ++ " failed 5 times") := by
      simp only [iterateHandles]
      rw [handle_terminated_fatal JobStatus.terminated newId _ rfl
        (by dsimp only; omega)]
    rw [hlast] at hsplit
    have h76 : (7 : Nat) = 6 + 1 := rfl
    rw [h76]
    exact hsplit

/-- C2 witness: the concrete terminated job `jExT` survives six rounds with
exactly 6 submits and fails fatally on the seventh. -/
theorem C2_retry_cap_witness :
    iterateHandles JobStatus.terminated "id7" 6 jExT =
      .ok (⟨jExT.job_task_list, jExT.resources, some JobStatus.terminated,
            "id7", 6⟩, 6) ∧
    iterateHandles JobStatus.terminated "id7" 7 jExT =
      .error ("job:job " ++
        (Job.mk jExT.job_task_list jExT.resources (some JobStatus.terminated)
          "id7" 6).reprStr ++ " failed 5 times") :=
  ⟨(C2_retry_cap "id7" jExT rfl rfl).2.1, (C2_retry_cap "id7" jExT rfl rfl).2.2⟩

/-! ## C7 -/

/-- C7 counterexample: a Job as constructed by `generate_jobs`
(`Job.__init__`) has `job_state = None`, not `unsubmitted`, and a handler
call before any status refresh takes no branch: it performs no submit and
leaves the Job unchanged. -/
theorem C7_initial_unsubmitted_counterexample :
    (Job.init [tEx1] rEx).job_state = Option.none ∧
    (Job.init [tEx1] rEx).job_state ≠ some JobStatus.unsubmitted ∧
    (Job.init [tEx1] rEx).handle_unexpected_job_state JobStatus.unsubmitted
      "id1" = .ok (Job.init [tEx1] rEx, 0) :=
  ⟨rfl, by decide, rfl⟩

/-- C7 (amended): every freshly constructed Job has `job_state = None` (the
comment in the constructor equates it with `unsubmitted`) and `fail_count = 0`; a
handler call before any refresh is a no-op with zero submits; the handler
takes the `unsubmitted` branch — incrementing `fail_count`, submitting once
and refreshing — only once a status refresh has reported `unsubmitted`. -/
theorem C7_initial_state_amended (tl : List Task) (res : Resources)
    (check : JobStatus) (newId : String) :
    (Job.init tl res).job_state = Option.none
  ∧ (Job.init tl res).fail_count = 0
  ∧ (Job.init tl res).handle_unexpected_job_state check newId =
      .ok (Job.init tl res, 0)
  ∧ (∀ j : Job, j.job_state = some JobStatus.unsubmitted → j.fail_count ≤ 5 →
      j.handle_unexpected_job_state check newId =
        .ok (⟨j.job_task_list, j.resources, some check, newId,
              j.fail_count + 1⟩, 1)) := by
  refine ⟨rfl, rfl, rfl, ?_⟩
  intro j hst hfc
  unfold Job.handle_unexpected_job_state
  rw [hst]
  simp [Nat.not_lt.mpr hfc, Job.submit_job, Job.get_job_state]

/-- C7 witness: the refreshed-to-`unsubmitted` job `jExU` is submitted by the
handler with one `do_submit` call. -/
theorem C7_initial_state_amended_witness :
    jExU.handle_unexpected_job_state JobStatus.running "id2" =
      .ok (⟨jExU.job_task_list, jExU.resources, some JobStatus.running, "id2",
            jExU.fail_count + 1⟩, 1) :=
  (C7_initial_state_amended [] rEx JobStatus.running "id2").2.2.2 jExU rfl
    (by decide)

/-! ## C3 -/

/-- C3 counterexample: an exception raised by
`handle_unexpected_submission_state` during a polling-loop iteration (the
`else` clause of the `try`) is caught by no `except` clause: it propagates
with no snapshot written, no diagnostic, and no exit code 3. -/
theorem C3_interruption_counterexample :
    (pollIteration Option.none (some "boom")).snapshotWritten = false ∧
    (pollIteration Option.none (some "boom")).diagnosticEmitted = false ∧
    (pollIteration Option.none (some "boom")).outcome =
      IterOutcome.propagate "boom" ∧
    (pollIteration Option.none (some "boom")).outcome ≠
      IterOutcome.exitc 3 :=
  ⟨rfl, rfl, rfl, by decide⟩

/-- C3 (amended): exceptions raised at the polling sleep are handled —
snapshot first, then the diagnostic naming the submission, then exit with the
category code (user cancel 1, orderly exit 2, any other 3); an exception
raised by the per-iteration handler propagates out of the loop uncaught,
without snapshot, diagnostic, or exit code; an uneventful sleep continues
the loop via the handler. -/
theorem C3_interruption_amended (m : Option String) (emsg pmsg : String) :
    pollIteration (some SleepExc.keyboard) m =
      ⟨true, true, IterOutcome.exitc 1⟩
  ∧ pollIteration (some SleepExc.sysExit) m =
      ⟨true, true, IterOutcome.exitc 2⟩
  ∧ pollIteration (some (SleepExc.other emsg)) m =
      ⟨true, true, IterOutcome.exitc 3⟩
  ∧ pollIteration Option.none (some pmsg) =
      ⟨false, false, IterOutcome.propagate pmsg⟩
  ∧ pollIteration Option.none Option.none =
      ⟨false, false, IterOutcome.continueLoop⟩ :=
  ⟨rfl, rfl, rfl, rfl, rfl⟩

/-! ## C6 -/

/-- C6: in the not-all-finished branch of the pre-loop phase the driver
recovers, uploads and handles — but writes no snapshot before entering the
polling loop: the statement `self.submission_to_json` evaluates the bound
method without calling it. -/
theorem C6_preloop_no_snapshot :
    runPreLoop false =
      [DriverEv.recoverEv, DriverEv.uploadEv, DriverEv.handleEv]
  ∧ DriverEv.snapshotEv ∉ runPreLoop false
  ∧ DriverEv.snapshotEv ∉ runPreLoop true :=
  ⟨rfl, by decide, by decide⟩

/-! ## C4 -/

/-- `PyVal.ofList` is injective. -/
theorem PyVal.ofList_inj :
    ∀ {xs ys : List PyVal}, PyVal.ofList xs = PyVal.ofList ys → xs = ys := by
  intro xs
  induction xs with
  | nil =>
      intro ys h
      cases ys with
      | nil => rfl
      | cons y t => simp [PyVal.ofList] at h
  | cons x t ih =>
      intro ys h
      cases ys with
      | nil => simp [PyVal.ofList] at h
      | cons y t2 =>
          simp only [PyVal.ofList, PyVal.cons.injEq] at h
          rw [h.1, ih h.2]

/-- Statically equal Submissions serialize their job lists identically. -/
theorem eq_static_jobs_serialize (s recov : Submission)
    (h : s.serialize true = recov.serialize true) :
    s.belonging_jobs.map (fun j => j.serialize true) =
      recov.belonging_jobs.map (fun j => j.serialize true) := by
  simp only [Submission.serialize, PyVal.ofDict, PyVal.dcons.injEq, true_and,
    and_true] at h
  exact PyVal.ofList_inj h.2.2.2.2

/-- C4: `try_recover_from_json`.  When no snapshot file exists, nothing
changes.  When a snapshot deserializes to a statically equal Submission, the
prior Jobs are adopted wholesale (runtime triple included) and
`submission_hash` is unchanged; on a static mismatch the call raises
`Recover failed.`. -/
theorem C4_try_recover (s : Submission)
    (hsh : s.submission_hash = s.get_hash) :
    (s.try_recover_from_json Option.none = .ok s)
  ∧ (∀ d recov, Submission.deserialize d = .ok recov →
      ((s.serialize true = recov.serialize true →
          s.try_recover_from_json (some d) =
            .ok {s with belonging_jobs := recov.belonging_jobs,
                        submission_hash := s.submission_hash})
        ∧ (s.serialize true ≠ recov.serialize true →
          s.try_recover_from_json (some d) = .error "Recover failed."))) := by
  refine ⟨rfl, ?_⟩
  intro d recov hdes
  constructor
  · intro heq
    have hjobs := eq_static_jobs_serialize s recov heq
    have hser : ({s with belonging_jobs := recov.belonging_jobs} :
        Submission).serialize true = s.serialize true := by
      simp only [Submission.serialize]
      rw [← hjobs]
    have hbb : ({s with belonging_jobs := recov.belonging_jobs} :
        Submission).bind_batch =
        {s with belonging_jobs := recov.belonging_jobs,
                submission_hash := s.submission_hash} := by
      unfold Submission.bind_batch Submission.get_hash
      rw [hser]
      rw [hsh]
      rfl
    unfold Submission.try_recover_from_json
    dsimp only
    rw [hdes]
    dsimp only
    rw [if_pos heq, hbb]
  · intro hne
    unfold Submission.try_recover_from_json
    dsimp only
    rw [hdes]
    dsimp only
    rw [if_neg hne]

set_option maxRecDepth 4000 in
/-- C4 witness: recovering `sGen` from the snapshot written by the
runtime-progressed `sMut` adopts the Jobs of `sMut` (runtime state included) and
leaves `submission_hash` unchanged. -/
theorem C4_try_recover_witness :
    sGen.try_recover_from_json (some (sMut.serialize false)) =
      .ok {sGen with belonging_jobs := recovEx.belonging_jobs,
                     submission_hash := sGen.submission_hash} ∧
    recovEx.belonging_jobs = sMut.belonging_jobs :=
  ⟨((C4_try_recover sGen rfl).2 (sMut.serialize false) recovEx rfl).1 rfl,
   rfl⟩

/-! ## C1 -/

/-- Pulling the element at index `k` to the front while writing `a` into its
slot permutes `a :: t`. -/
theorem perm_getD_set (d a : Nat) :
    ∀ (t : List Nat) (k : Nat), k < t.length →
      (t.getD k d :: t.set k a).Perm (a :: t) := by
  intro t
  induction t with
  | nil =>
      intro k hk
      simp at hk
  | cons b u ih =>
      intro k hk
      cases k with
      | zero =>
          simp only [List.getD_cons_zero, List.set_cons_zero]
          exact List.Perm.swap a b u
      | succ k2 =>
          have hk2 : k2 < u.length := by simpa using hk
          simp only [List.getD_cons_succ, List.set_cons_succ]
          exact (List.Perm.swap b (u.getD k2 d) (u.set k2 a)).trans
            (((ih k2 hk2).cons b).trans (List.Perm.swap a b u))

/-- A Fisher-Yates swap of two in-range positions permutes the list. -/
theorem swapL_perm :
    ∀ (l : List Nat) (i j : Nat), i < l.length → j < l.length →
      (swapL l i j).Perm l := by
  intro l
  induction l with
  | nil =>
      intro i j hi _
      simp at hi
  | cons a t ih =>
      intro i j hi hj
      cases i with
      | zero =>
          cases j with
          | zero => simp [swapL]
          | succ k =>
              have hk : k < t.length := by simpa using hj
              simp only [swapL, List.getD_cons_succ, List.getD_cons_zero,
                List.set_cons_zero, List.set_cons_succ]
              exact perm_getD_set 0 a t k hk
      | succ m =>
          cases j with
          | zero =>
              have hm : m < t.length := by simpa using hi
              simp only [swapL, List.getD_cons_succ, List.getD_cons_zero,
                List.set_cons_zero, List.set_cons_succ]
              exact perm_getD_set 0 a t m hm
          | succ k =>
              have hm : m < t.length := by simpa using hi
              have hk : k < t.length := by simpa using hj
              simp only [swapL, List.getD_cons_succ, List.set_cons_succ]
              exact (ih m k hm hk).cons a

/-- The whole shuffle loop permutes the list. -/
theorem fyStep_perm :
    ∀ (i : Nat) (l : List Nat), i < l.length → (fyStep i l).Perm l := by
  intro i
  induction i with
  | zero =>
      intro l _
      exact List.Perm.refl l
  | succ i ih =>
      intro l hi
      have hj : randStream i % (i + 2) < l.length := by
        have h1 : randStream i % (i + 2) < i + 2 := Nat.mod_lt _ (by omega)
        omega
      have hlen : (swapL l (i + 1) (randStream i % (i + 2))).length = l.length := by
        simp [swapL]
      have hper := swapL_perm l (i + 1) (randStream i % (i + 2)) hi hj
      have hih := ih (swapL l (i + 1) (randStream i % (i + 2)))
        (by rw [hlen]; omega)
      exact hih.trans hper

/-- `shuffle42 n` is a permutation of the index list `[0, n)`. -/
theorem shuffle42_perm (n : Nat) : (shuffle42 n).Perm (List.range n) := by
  cases n with
  | zero => exact List.Perm.refl _
  | succ n =>
      exact fyStep_perm n (List.range (n + 1)) (by simp)

/-- Shifting the slice starts by `g` is slicing the `g`-dropped list. -/
theorem range'_shift_slice (g : Nat) :
    ∀ (c s : Nat) (l : List Nat),
      (List.range' (s + g) c g).map (fun ii => (l.drop ii).take g) =
      (List.range' s c g).map (fun ii => ((l.drop g).drop ii).take g) := by
  intro c
  induction c with
  | zero =>
      intro s l
      rfl
  | succ c ih =>
      intro s l
      rw [List.range'_succ, List.range'_succ]
      simp only [List.map_cons]
      congr 1
      · rw [List.drop_drop, Nat.add_comm g s]
      · exact ih (s + g) l

/-- The slicing comprehension agrees with the recursive chunker. -/
theorem range'_map_slice_eq_chunkRec (g : Nat) :
    ∀ (c : Nat) (l : List Nat),
      (List.range' 0 c g).map (fun ii => (l.drop ii).take g) =
        chunkRec g c l := by
  intro c
  induction c with
  | zero =>
      intro l
      rfl
  | succ c ih =>
      intro l
      rw [List.range'_succ, List.map_cons, List.drop_zero]
      rw [show (0 + g) = g from Nat.zero_add g]
      have hshift := range'_shift_slice g c 0 l
      rw [Nat.zero_add] at hshift
      rw [hshift, ih (l.drop g)]
      rfl

/-- `chunked` is the recursive chunker run for the ceiling count. -/
theorem chunked_eq_chunkRec (g : Nat) (l : List Nat) :
    chunked g l = chunkRec g ((l.length + g - 1) / g) l :=
  range'_map_slice_eq_chunkRec g ((l.length + g - 1) / g) l

/-- The ceiling division count covers the list exactly. -/
theorem ceil_bounds (g : Nat) (hg : 0 < g) (n : Nat) :
    n ≤ ((n + g - 1) / g) * g ∧ ((n + g - 1) / g) * g < n + g := by
  have hdm := Nat.div_add_mod (n + g - 1) g
  have hmod : (n + g - 1) % g < g := Nat.mod_lt _ hg
  rw [Nat.mul_comm g ((n + g - 1) / g)] at hdm
  generalize ((n + g - 1) / g) * g = m at hdm ⊢
  omega

/-- The recursive chunker restores the list when the count covers it. -/
theorem chunkRec_join (g : Nat) :
    ∀ (c : Nat) (l : List Nat), l.length ≤ c * g →
      (chunkRec g c l).flatten = l := by
  intro c
  induction c with
  | zero =>
      intro l h
      simp only [Nat.zero_mul, Nat.le_zero] at h
      rw [List.eq_nil_of_length_eq_zero h]
      rfl
  | succ c ih =>
      intro l h
      rw [Nat.succ_mul] at h
      simp only [chunkRec, List.flatten_cons]
      rw [ih (l.drop g) ?_]
      · exact List.take_append_drop g l
      · rw [List.length_drop]
        generalize c * g = m at h ⊢
        omega

/-- The recursive chunker makes exactly `c` chunks. -/
theorem chunkRec_length (g : Nat) :
    ∀ (c : Nat) (l : List Nat), (chunkRec g c l).length = c := by
  intro c
  induction c with
  | zero => intro l; rfl
  | succ c ih =>
      intro l
      simp only [chunkRec, List.length_cons, ih]

/-- With a tight count, every chunk is nonempty of size at most `g`, and all
chunks but the last have size exactly `g`. -/
theorem chunkRec_sizes (g : Nat) (hg : 0 < g) :
    ∀ (c : Nat) (l : List Nat), c * g < l.length + g → l.length ≤ c * g →
      (∀ ch ∈ chunkRec g c l, ch ≠ [] ∧ ch.length ≤ g) ∧
      (∀ i, i + 1 < c → ((chunkRec g c l).getD i []).length = g) := by
  intro c
  induction c with
  | zero =>
      intro l _ _
      exact ⟨by intro ch h; simp [chunkRec] at h, by intro i h; omega⟩
  | succ c ih =>
      intro l hlow hhigh
      rw [Nat.succ_mul] at hlow hhigh
      have hlen1 : 1 ≤ l.length := by
        generalize c * g = m at hlow hhigh
        omega
      have hdroplow : c * g < (l.drop g).length + g := by
        rw [List.length_drop]
        generalize c * g = m at hlow hhigh ⊢
        omega
      have hdrophigh : (l.drop g).length ≤ c * g := by
        rw [List.length_drop]
        generalize c * g = m at hlow hhigh ⊢
        omega
      obtain ⟨ihmem, ihidx⟩ := ih (l.drop g) hdroplow hdrophigh
      constructor
      · intro ch hch
        simp only [chunkRec, List.mem_cons] at hch
        cases hch with
        | inl h =>
            subst h
            constructor
            · have : (l.take g).length = min g l.length := List.length_take g l
              intro hnil
              rw [hnil] at this
              simp only [List.length_nil] at this
              omega
            · rw [List.length_take]
              omega
        | inr h => exact ihmem ch h
      · intro i hi
        cases i with
        | zero =>
            have hc1 : 1 ≤ c := by omega
            have hgle : g ≤ c * g := Nat.le_mul_of_pos_left g hc1
            simp only [chunkRec, List.getD_cons_zero, List.length_take]
            generalize c * g = m at hlow hhigh hgle
            omega
        | succ i2 =>
            simp only [chunkRec, List.getD_cons_succ]
            exact ihidx i2 (by omega)

/-- C1: `generate_jobs` is deterministic grouping.  Given at least one
registered task and a positive `group_size`, it succeeds; the seeded shuffle
is a permutation of the task indices `[0, N)`; the chunks partition that
permutation contiguously in order, each nonempty of size at most
`group_size`, all but the last of size exactly `group_size`; one Job per
chunk is appended, carrying the tasks at the indices of the chunk, the
resources of the submission (a deep copy being the value itself), and a fresh
runtime triple; and any Submission with the same registered tasks and
resources yields the same ordered list of Job task-lists. -/
theorem C1_generate_jobs_deterministic (s : Submission)
    (htasks : s.belonging_tasks ≠ []) (hg : 1 ≤ s.resources.group_size) :
    ∃ s1, s.generate_jobs = .ok s1 ∧
      (shuffle42 s.belonging_tasks.length).Perm
        (List.range s.belonging_tasks.length)
      ∧ (genChunks s).flatten = shuffle42 s.belonging_tasks.length
      ∧ (∀ ch ∈ genChunks s,
          ch ≠ [] ∧ ch.length ≤ s.resources.group_size.toNat)
      ∧ (∀ i, i + 1 < (genChunks s).length →
          ((genChunks s).getD i []).length = s.resources.group_size.toNat)
      ∧ s1.belonging_jobs = s.belonging_jobs ++ genJobsList s
      ∧ (∀ jb ∈ genJobsList s, jb.resources = s.resources ∧
          jb.job_state = Option.none ∧ jb.job_id = "" ∧ jb.fail_count = 0)
      ∧ (∀ s2 : Submission, s2.belonging_tasks = s.belonging_tasks →
          s2.resources = s.resources →
          ∃ s2o, s2.generate_jobs = .ok s2o ∧
            (s2o.belonging_jobs.drop s2.belonging_jobs.length).map
              (fun jb => jb.job_task_list) =
            (s1.belonging_jobs.drop s.belonging_jobs.length).map
              (fun jb => jb.job_task_list)) := by
  have hgen : ∀ s2 : Submission, s2.belonging_tasks = s.belonging_tasks →
      s2.resources = s.resources →
      s2.generate_jobs = .ok {s2 with
        belonging_jobs := s2.belonging_jobs ++ genJobsList s2,
        submission_hash := ({s2 with belonging_jobs :=
          s2.belonging_jobs ++ genJobsList s2} : Submission).get_hash} := by
    intro s2 ht hr
    simp only [Submission.generate_jobs]
    rw [if_neg (by rw [hr]; omega)]
    rw [if_neg (by rw [ht]; simpa [List.length_eq_zero] using htasks)]
    simp only [genJobsList, genChunks]
  have hjl : ∀ s2 : Submission, s2.belonging_tasks = s.belonging_tasks →
      s2.resources = s.resources → genJobsList s2 = genJobsList s := by
    intro s2 ht hr
    unfold genJobsList genChunks
    rw [ht, hr]
  have hgpos : 0 < s.resources.group_size.toNat := by omega
  have hlen : (shuffle42 s.belonging_tasks.length).length =
      s.belonging_tasks.length :=
    (shuffle42_perm s.belonging_tasks.length).length_eq.trans
      (List.length_range s.belonging_tasks.length)
  have hcb := ceil_bounds s.resources.group_size.toNat hgpos
    s.belonging_tasks.length
  have hchunks : genChunks s = chunkRec s.resources.group_size.toNat
      ((s.belonging_tasks.length + s.resources.group_size.toNat - 1) /
        s.resources.group_size.toNat) (shuffle42 s.belonging_tasks.length) := by
    unfold genChunks
    rw [chunked_eq_chunkRec, hlen]
  have hsz := chunkRec_sizes s.resources.group_size.toNat hgpos
    ((s.belonging_tasks.length + s.resources.group_size.toNat - 1) /
      s.resources.group_size.toNat) (shuffle42 s.belonging_tasks.length)
    (by rw [hlen]; omega) (by rw [hlen]; exact hcb.1)
  refine ⟨_, hgen s rfl rfl, shuffle42_perm _, ?_, ?_, ?_, rfl, ?_, ?_⟩
  · rw [hchunks]
    exact chunkRec_join _ _ _ (by rw [hlen]; exact hcb.1)
  · intro ch hch
    rw [hchunks] at hch
    exact hsz.1 ch hch
  · intro i hi
    rw [hchunks] at hi ⊢
    rw [chunkRec_length] at hi
    exact hsz.2 i hi
  · intro jb hjb
    simp only [genJobsList, List.mem_map] at hjb
    obtain ⟨ii, _, rfl⟩ := hjb
    exact ⟨rfl, rfl, rfl, rfl⟩
  · intro s2 ht hr
    refine ⟨_, hgen s2 ht hr, ?_⟩
    simp only [List.drop_left]
    rw [hjl s2 ht hr]

/-- C1 witness: the three-task, `group_size = 2` submission `sEx` generates
its jobs as claimed. -/
theorem C1_generate_jobs_deterministic_witness :
    ∃ s1, sEx.generate_jobs = .ok s1 ∧
      (shuffle42 sEx.belonging_tasks.length).Perm
        (List.range sEx.belonging_tasks.length)
      ∧ (genChunks sEx).flatten = shuffle42 sEx.belonging_tasks.length
      ∧ (∀ ch ∈ genChunks sEx,
          ch ≠ [] ∧ ch.length ≤ sEx.resources.group_size.toNat)
      ∧ (∀ i, i + 1 < (genChunks sEx).length →
          ((genChunks sEx).getD i []).length = sEx.resources.group_size.toNat)
      ∧ s1.belonging_jobs = sEx.belonging_jobs ++ genJobsList sEx
      ∧ (∀ jb ∈ genJobsList sEx, jb.resources = sEx.resources ∧
          jb.job_state = Option.none ∧ jb.job_id = "" ∧ jb.fail_count = 0)
      ∧ (∀ s2 : Submission, s2.belonging_tasks = sEx.belonging_tasks →
          s2.resources = sEx.resources →
          ∃ s2o, s2.generate_jobs = .ok s2o ∧
            (s2o.belonging_jobs.drop s2.belonging_jobs.length).map
              (fun jb => jb.job_task_list) =
            (s1.belonging_jobs.drop sEx.belonging_jobs.length).map
              (fun jb => jb.job_task_list)) :=
  C1_generate_jobs_deterministic sEx (by decide) (by decide)

end Dpd
